import Mathlib

/-!
Verification development for the offline RAG SQL agent.

This file gives a shallow embedding, in Lean, of the query pipeline of the
repository (`offline_rag_agent`): the security validator (`utils/security.py`),
the SQL validator and extractor (`query_processor.py`), the schema relevance
filter (`schema_manager.py`), the completion client (`llm_client.py`) and the
orchestrator (`rag_agent.py`).  Python strings are modelled as `String` /
`List Char`, Python exceptions as explicit sum types (`Option` / `Except`),
and the external capabilities (sqlite, llama.cpp, pandas) as abstract
functions bundled in environment structures.  Each regular-expression check of
the source is transliterated into a decidable function on `List Char` whose
doc comment records the regex it embeds and the reduction used.
-/

/-! ## Basic string utilities (Python `str` operations) -/

/-- Whitespace in the sense of Python's `str.isspace` / regex `\s`,
restricted to the ASCII range (the only characters the SQL pipeline uses):
space, tab, newline, carriage return, vertical tab, form feed. -/
def isPyWS (c : Char) : Bool :=
  c = ' ' || c = '\t' || c = '\n' || c = '\r' || c = Char.ofNat 11 || c = Char.ofNat 12

/-- Python `str.strip()` on a character list: drop whitespace from both ends. -/
def stripWS (cs : List Char) : List Char :=
  ((cs.dropWhile isPyWS).reverse.dropWhile isPyWS).reverse

/-- Python `str.rstrip(';')`: drop every trailing semicolon. -/
def rstripSemis (cs : List Char) : List Char :=
  (cs.reverse.dropWhile (fun c => c = ';')).reverse

/-- Python `s.strip()` at `String` level. -/
def stripStr (s : String) : String := String.mk (stripWS s.data)

/-- Uppercase a character list (Python `str.upper`, ASCII). -/
def upperL (cs : List Char) : List Char := cs.map Char.toUpper

/-- Lowercase a character list (Python `str.lower`, ASCII). -/
def lowerL (cs : List Char) : List Char := cs.map Char.toLower

/-- Substring test: Python's `needle in hay`. -/
def containsSub (needle : List Char) : List Char → Bool
  | [] => needle.isEmpty
  | c :: t => needle.isPrefixOf (c :: t) || containsSub needle t

/-- Case-insensitive prefix test: `pat` (already uppercase) begins `cs`
after uppercasing. -/
def ciStarts : List Char → List Char → Bool
  | [], _ => true
  | _ :: _, [] => false
  | p :: ps, c :: cs => p = c.toUpper && ciStarts ps cs

/-- Case-insensitive substring test (`pat` already uppercase), as used by
`re.search(..., re.IGNORECASE)` on a literal pattern. -/
def ciContains (pat : List Char) : List Char → Bool
  | [] => pat.isEmpty
  | c :: t => ciStarts pat (c :: t) || ciContains pat t

/-- Python `str.split(sep)` for a single character separator; empty parts
are preserved and the empty string splits to `[[]]`. -/
def splitOnCh (sep : Char) : List Char → List (List Char)
  | [] => [[]]
  | c :: t =>
    match splitOnCh sep t with
    | [] => [[c]]
    | p :: ps => if c = sep then [] :: p :: ps else (c :: p) :: ps

/-- Python `s.split(sub)[0]`: the part of `cs` before the first occurrence of
`sub` (the whole of `cs` when `sub` does not occur). -/
def takeBeforeSub (sub : List Char) : List Char → List Char
  | [] => []
  | c :: t => if sub.isPrefixOf (c :: t) then [] else c :: takeBeforeSub sub t

/-- Python `str.replace(pat, "")` (leftmost, non-overlapping removal of every
occurrence) for a nonempty pattern.  The `fuel` argument only makes the
recursion structural; it is instantiated with the string length, which
suffices because each step consumes at least one character. -/
def removeSubFuel (pat : List Char) : Nat → List Char → List Char
  | 0, cs => cs
  | _ + 1, [] => []
  | n + 1, c :: t =>
    if pat.isPrefixOf (c :: t) then
      removeSubFuel pat n ((c :: t).drop pat.length)
    else
      c :: removeSubFuel pat n t

/-- Python `str.replace(pat, "")` on a character list. -/
def removeSub (pat cs : List Char) : List Char := removeSubFuel pat cs.length cs

/-! ## Gate A: `SecurityValidator.validate_sql_injection` (utils/security.py)

Each entry of the Python `dangerous_patterns` list is embedded as a decidable
matcher on `List Char`; the doc comment of each matcher names the regex it
embeds and justifies the transliteration of Python `re.search` semantics. -/

/-- Word character in the sense of regex `\w` (`[A-Za-z0-9_]`). -/
def isWordChar (c : Char) : Bool := c.isAlphanum || c = '_'

/-- Helper for aggregate-call erasure: `\s*` followed by one literal
character; returns the remainder on success. -/
def expectCh (ch : Char) (cs : List Char) : Option (List Char) :=
  match cs.dropWhile isPyWS with
  | [] => none
  | c :: t => if c = ch then some t else none

/-- Matcher for the `\s*\(\s*\*\s*\)` tail of a bare aggregate call. -/
def aggAfterName (r : List Char) : Option (List Char) :=
  match expectCh '(' r with
  | none => none
  | some r1 =>
    match expectCh '*' r1 with
    | none => none
    | some r2 => expectCh ')' r2

/-- Try one aggregate function name (given uppercase) at the head of `cs`. -/
def aggTryName (nm cs : List Char) : Option (List Char) :=
  if ciStarts nm cs then aggAfterName (cs.drop nm.length) else none

/-- Attempt to match `(COUNT|SUM|AVG|MIN|MAX)\s*\(\s*\*\s*\)` (ignoring case)
at the head of `cs`; on success, return the remainder after the match. -/
def tryAggMatch (cs : List Char) : Option (List Char) :=
  match aggTryName "COUNT".data cs with
  | some r => some r
  | none =>
    match aggTryName "SUM".data cs with
    | some r => some r
    | none =>
      match aggTryName "AVG".data cs with
      | some r => some r
      | none =>
        match aggTryName "MIN".data cs with
        | some r => some r
        | none => aggTryName "MAX".data cs

theorem dropWhile_len_le (p : Char → Bool) :
    ∀ cs : List Char, (cs.dropWhile p).length ≤ cs.length := by
  intro cs
  induction cs with
  | nil => simp
  | cons c t ih => by_cases h : p c <;> simp [List.dropWhile, h] <;> omega

theorem expectCh_length_lt {ch : Char} {cs r : List Char}
    (h : expectCh ch cs = some r) : r.length < cs.length := by
  unfold expectCh at h
  rcases hd : cs.dropWhile isPyWS with _ | ⟨c, t⟩ <;> rw [hd] at h
  · exact absurd h (by simp)
  · have h1 : (cs.dropWhile isPyWS).length ≤ cs.length := dropWhile_len_le isPyWS cs
    rw [hd] at h1
    simp only [List.length_cons] at h1
    by_cases hc : c = ch
    · simp only [hc, if_true, Option.some.injEq] at h
      subst h
      omega
    · simp [hc] at h

theorem aggAfterName_length_lt {cs r : List Char}
    (h : aggAfterName cs = some r) : r.length < cs.length := by
  unfold aggAfterName at h
  split at h
  · exact absurd h (by simp)
  next r1 h1 =>
    split at h
    · exact absurd h (by simp)
    next r2 h2 =>
      have l1 := expectCh_length_lt h1
      have l2 := expectCh_length_lt h2
      have l3 := expectCh_length_lt h
      omega

theorem aggTryName_length_lt {nm cs r : List Char}
    (h : aggTryName nm cs = some r) : r.length < cs.length := by
  unfold aggTryName at h
  by_cases hs : ciStarts nm cs
  · rw [if_pos hs] at h
    have := aggAfterName_length_lt h
    have hd : (cs.drop nm.length).length ≤ cs.length := by simp
    omega
  · rw [if_neg hs] at h
    exact absurd h (by simp)

theorem tryAggMatch_length_lt {cs r : List Char}
    (h : tryAggMatch cs = some r) : r.length < cs.length := by
  unfold tryAggMatch at h
  rcases h1 : aggTryName "COUNT".data cs with _ | r1 <;> rw [h1] at h
  case some => exact Option.some_inj.mp h ▸ aggTryName_length_lt h1
  rcases h2 : aggTryName "SUM".data cs with _ | r2 <;> rw [h2] at h
  case some => exact Option.some_inj.mp h ▸ aggTryName_length_lt h2
  rcases h3 : aggTryName "AVG".data cs with _ | r3 <;> rw [h3] at h
  case some => exact Option.some_inj.mp h ▸ aggTryName_length_lt h3
  rcases h4 : aggTryName "MIN".data cs with _ | r4 <;> rw [h4] at h
  case some => exact Option.some_inj.mp h ▸ aggTryName_length_lt h4
  exact aggTryName_length_lt h

/-- Erasure pass of `re.sub(r'\b(COUNT|SUM|AVG|MIN|MAX)\s*\(\s*\*\s*\)', '', q,
re.IGNORECASE)`: scan left to right, removing every aggregate-star call whose
start sits at a `\b` boundary (previous character not a word character);
scanning resumes after each removed match, exactly as `re.sub` does.
`prevWord` records whether the previous character of the original string is a
word character.  The `fuel` argument only makes the recursion structural; any
fuel of at least the string length gives the same result
(`eraseAggFuel_fuel_irrelevant`). -/
def eraseAggFuel : Nat → Bool → List Char → List Char
  | 0, _, cs => cs
  | _ + 1, _, [] => []
  | n + 1, prevWord, c :: t =>
    if prevWord then
      c :: eraseAggFuel n (isWordChar c) t
    else
      match tryAggMatch (c :: t) with
      | some r =>
        -- the character before the resumption point is `)`, not a word char
        eraseAggFuel n false r
      | none => c :: eraseAggFuel n (isWordChar c) t

theorem eraseAggFuel_fuel_irrelevant :
    ∀ n m : Nat, ∀ prev : Bool, ∀ cs : List Char,
      cs.length ≤ n → cs.length ≤ m →
      eraseAggFuel n prev cs = eraseAggFuel m prev cs := by
  intro n
  induction n using Nat.strong_induction_on with
  | _ n ih =>
    intro m prev cs hn hm
    rcases cs with _ | ⟨c, t⟩
    · cases n <;> cases m <;> rfl
    · cases n with
      | zero => simp at hn
      | succ n =>
        cases m with
        | zero => simp at hm
        | succ m =>
          simp only [List.length_cons] at hn hm
          cases prev with
          | true =>
            simp only [eraseAggFuel, if_true, List.cons.injEq, true_and]
            exact ih n (by omega) m (isWordChar c) t (by omega) (by omega)
          | false =>
            simp only [eraseAggFuel, Bool.false_eq_true, if_false]
            rcases hmatch : tryAggMatch (c :: t) with _ | r
            · simp only [List.cons.injEq, true_and]
              exact ih n (by omega) m (isWordChar c) t (by omega) (by omega)
            · have hlt := tryAggMatch_length_lt hmatch
              simp only [List.length_cons] at hlt
              exact ih n (by omega) m false r (by omega) (by omega)

/-- The aggregate-star erasure applied from the start of the string. -/
def eraseAggStar (cs : List Char) : List Char := eraseAggFuel cs.length false cs

/-- Matcher for `r'--.*$'` under `re.search` without `re.MULTILINE`:
`.*` cannot cross a newline and `$` matches only at the end of the string or
just before one final newline, so the regex matches exactly when `--` occurs
in the last line of the string once a single final newline is removed. -/
def lineCommentMatch (cs : List Char) : Bool :=
  let core := if cs.getLast? = some '\n' then cs.dropLast else cs
  let lastLine := (core.reverse.takeWhile (fun c => c ≠ '\n')).reverse
  containsSub ['-', '-'] lastLine

/-- Matcher for `r';\s*(?!$)'` under `re.search`: the lazy backtracking of
`\s*` means the pattern matches exactly when some `;` is neither the final
character nor immediately followed by nothing but one final newline
(taking zero whitespace characters after such a `;` already defeats the
negative lookahead). -/
def semiNotAtEnd : List Char → Bool
  | [] => false
  | [_] => false
  | c :: d :: rest =>
    (c = ';' && !(d = '\n' && rest = [])) || semiNotAtEnd (d :: rest)

/-- Helper for the block-comment pattern: after an opening `/*`, look for a
closing `*/` on the same line (`.*` does not cross newlines). -/
def closeSameLine : List Char → Bool
  | '*' :: '/' :: _ => true
  | '\n' :: _ => false
  | _ :: rest => closeSameLine rest
  | [] => false

/-- Matcher for `r'/\*.*\*/'`: an opening `/*` with a closing `*/` later on
the same line. -/
def blockCommentMatch : List Char → Bool
  | '/' :: '*' :: rest => closeSameLine rest || blockCommentMatch ('*' :: rest)
  | _ :: rest => blockCommentMatch rest
  | [] => false

/-- Matcher for a keyword sequence `K1\s+K2\s+...` (ignoring case), the shape
of `UNION\s+SELECT`, `DROP\s+TABLE`, etc.  Because each keyword begins with a
letter, the greedy `\s+` can only hand over to the next keyword after the
whole whitespace run, so matching at a position means: first keyword, then
for each further keyword at least one whitespace character, skip the run,
and match the keyword. -/
def kwSeqAt (cs : List Char) : List (List Char) → Bool
  | [] => true
  | [kw] => ciStarts kw cs
  | kw :: kw2 :: kws =>
    ciStarts kw cs &&
      (match cs.drop kw.length with
       | [] => false
       | c :: _ => isPyWS c) &&
      kwSeqAt ((cs.drop kw.length).dropWhile isPyWS) (kw2 :: kws)

/-- Search version of `kwSeqAt`: `re.search` over all start positions. -/
def kwSeqSearch (kws : List (List Char)) : List Char → Bool
  | [] => kwSeqAt [] kws
  | c :: t => kwSeqAt (c :: t) kws || kwSeqSearch kws t

/-- Whether the segment between `UPDATE` and `SET` can be split as
`\s+ .* \s+` (first and last pieces nonempty whitespace, middle free of
newlines).  Taking the maximal whitespace prefix and suffix is optimal, since
shrinking either only moves whitespace (possibly newlines) into the `.*`
part. -/
def lastIsWS (l : List Char) : Bool :=
  match l.getLast? with
  | some c => isPyWS c
  | none => false

def updSegOk (seg : List Char) : Bool :=
  match seg with
  | [] => false
  | [_] => false
  | c :: _ =>
    isPyWS c && lastIsWS seg &&
      !((seg.dropWhile isPyWS).reverse.dropWhile isPyWS).contains '\n'

/-- Scan for an occurrence of `SET` (ignoring case) preceded by a segment
`seg` accepted by `updSegOk`; `seg` accumulates the characters between the
end of `UPDATE` and the candidate `SET`. -/
def updSetScan (seg : List Char) : List Char → Bool
  | [] => false
  | c :: t =>
    (ciStarts "SET".data (c :: t) && updSegOk seg) || updSetScan (seg ++ [c]) t

/-- Matcher for `r'UPDATE\s+.*\s+SET'` (ignoring case): an `UPDATE` followed,
after a nonempty whitespace run, a newline-free middle and another nonempty
whitespace run, by `SET`. -/
def updateSetMatch : List Char → Bool
  | [] => false
  | c :: t =>
    (ciStarts "UPDATE".data (c :: t) && updSetScan [] ((c :: t).drop 6)) ||
      updateSetMatch t

/-- Matcher for `r'EXEC\s+.*'` (ignoring case): since `.*` matches the empty
string, this is just `EXEC` followed by at least one whitespace character. -/
def execWsMatch (kw : List Char) : List Char → Bool
  | [] => false
  | c :: t =>
    (ciStarts kw (c :: t) &&
      (match (c :: t).drop kw.length with
       | [] => false
       | d :: _ => isPyWS d)) || execWsMatch kw t

/-- Hexadecimal digit, the character class `[0-9a-fA-F]`. -/
def isHexD (c : Char) : Bool :=
  c.isDigit || ('a' ≤ c && c ≤ 'f') || ('A' ≤ c && c ≤ 'F')

/-- Matcher for `r'0x[0-9a-fA-F]+'` (ignoring case): a literal `0`, an `x` or
`X`, and at least one hex digit. -/
def hexLiteralMatch : List Char → Bool
  | '0' :: c :: d :: rest => ((c = 'x' || c = 'X') && isHexD d) || hexLiteralMatch (c :: d :: rest)
  | _ :: t => hexLiteralMatch t
  | [] => false

/-- The `dangerous_patterns` list of `SecurityValidator.validate_sql_injection`,
in source order: each entry pairs the Python regex source text (used in the
`SecurityError` message) with its embedded matcher. -/
def dangerousPatterns : List (String × (List Char → Bool)) :=
  [ ("--.*$", lineCommentMatch),
    (";\\s*(?!$)", semiNotAtEnd),
    ("/\\*.*\\*/", blockCommentMatch),
    ("UNION\\s+ALL\\s+SELECT", kwSeqSearch ["UNION".data, "ALL".data, "SELECT".data]),
    ("UNION\\s+SELECT", kwSeqSearch ["UNION".data, "SELECT".data]),
    ("DROP\\s+TABLE", kwSeqSearch ["DROP".data, "TABLE".data]),
    ("DELETE\\s+FROM", kwSeqSearch ["DELETE".data, "FROM".data]),
    ("UPDATE\\s+.*\\s+SET", updateSetMatch),
    ("INSERT\\s+INTO", kwSeqSearch ["INSERT".data, "INTO".data]),
    ("ALTER\\s+TABLE", kwSeqSearch ["ALTER".data, "TABLE".data]),
    ("EXEC\\s+.*", execWsMatch "EXEC".data),
    ("EXECUTE\\s+.*", execWsMatch "EXECUTE".data),
    ("xp_cmdshell", ciContains "XP_CMDSHELL".data),
    ("sp_", ciContains "SP_".data),
    ("0x[0-9a-fA-F]+", hexLiteralMatch) ]

/-- First matching dangerous pattern, if any (the `for pattern in
dangerous_patterns` loop, which raises on the first hit). -/
def firstDangerous (cs : List Char) : List (String × (List Char → Bool)) → Option String
  | [] => none
  | (name, m) :: rest => if m cs then some name else firstDangerous cs rest

/-- Embedding of `SecurityValidator.validate_sql_injection` (utils/security.py).
The Python function strips every trailing semicolon (`query.rstrip(';')`),
erases bare aggregate-star calls, scans the dangerous patterns in order, and
raises `SecurityError(f"Potential SQL injection detected: {pattern}")` on the
first hit, returning `True` otherwise.  The raised `SecurityError` is modelled
as `some message`; a pass is `none`. -/
def validate_sql_injection (query : String) : Option String :=
  let query_to_check := rstripSemis query.data
  let query_to_check := eraseAggStar query_to_check
  (firstDangerous query_to_check dangerousPatterns).map
    (fun pat => "Potential SQL injection detected: " ++ pat)

/-! ## Gate B: `QueryProcessor.validate_sql` (query_processor.py) and its
configuration (`ALLOWED_SQL_KEYWORDS` from config.py) -/

/-- The `ALLOWED_SQL_KEYWORDS` set of config.py, transcribed entry for
entry (including multi-word entries, which can never match a single token). -/
def ALLOWED_SQL_KEYWORDS : List String :=
  [ "SELECT", "FROM", "WHERE", "GROUP BY", "ORDER BY", "HAVING",
    "JOIN", "LEFT JOIN", "RIGHT JOIN", "INNER JOIN", "ON",
    "AND", "OR", "NOT", "IN", "LIKE", "IS", "NULL",
    "AS", "DISTINCT", "COUNT", "SUM", "AVG", "MIN", "MAX",
    "CASE", "WHEN", "THEN", "ELSE", "END",
    "ASC", "DESC", "LIMIT", "OFFSET",
    "WITH", "UNION", "ALL",
    "COALESCE", "IFNULL", "NULLIF", "CAST",
    "UPPER", "LOWER", "TRIM", "LENGTH",
    "SUBSTR", "REPLACE", "CONCAT",
    "ROUND", "FLOOR", "CEIL",
    "DATE", "DATETIME", "STRFTIME",
    "=", "!=", "<>", "<", ">", "<=", ">=",
    "+", "-", "*", "/", "%",
    "||", "&&" ]

/-- The word-splitting loop of `validate_sql`: split the SELECT part into
words, treating `(` and `)` as standalone tokens and whitespace as a
separator only outside parentheses (`in_parentheses` is a plain boolean, not
a nesting counter, exactly as in the source).  `cur` is the reversed
`current_word` accumulator. -/
def tokWords (cur : List Char) (inParens : Bool) : List Char → List (List Char)
  | [] => if cur.isEmpty then [] else [cur.reverse]
  | c :: t =>
    if c = '(' then
      (if cur.isEmpty then [] else [cur.reverse]) ++ [['(']] ++ tokWords [] true t
    else if c = ')' then
      (if cur.isEmpty then [] else [cur.reverse]) ++ [[')']] ++ tokWords [] false t
    else if isPyWS c && !inParens then
      (if cur.isEmpty then [] else [cur.reverse]) ++ tokWords [] inParens t
    else
      tokWords (c :: cur) inParens t

/-- The aggregate-function skip of the word loop: starting at the aggregate
name itself, advance past every word up to and including the first `)`.
If no `)` remains, the loop index runs past the end (accepting the rest). -/
def dropAfterParen : List (List Char) → List (List Char)
  | [] => []
  | w :: ws => if w = [')'] then ws else dropAfterParen ws

/-- Quoted-word test: Python `word.startswith(('"', "'", "`"))`. -/
def startsQuoted (w : List Char) : Bool :=
  match w with
  | [] => false
  | c :: _ => c = Char.ofNat 34 || c = Char.ofNat 39 || c = Char.ofNat 96

/-- Identifier test of the word loop: every `.`-separated part of the word,
after removing underscores, is nonempty and alphanumeric (Python
`all(part.replace('_', '').isalnum() for part in word.split('.'))`, where
`''.isalnum()` is `False`). -/
def isIdentWord (w : List Char) : Bool :=
  (splitOnCh '.' w).all fun part =>
    let p := part.filter fun c => c ≠ '_'
    !p.isEmpty && p.all Char.isAlphanum

/-- Number test of the word loop: Python
`word.replace('.', '').replace('-', '').isdigit()`. -/
def isNumWord (w : List Char) : Bool :=
  let d := (w.filter fun c => c ≠ '.').filter fun c => c ≠ '-'
  !d.isEmpty && d.all Char.isDigit

/-- Operator/punctuation set of the word loop. -/
def opWords : List String :=
  ["=", "!=", "<>", "<", ">", "<=", ">=", "+", "-", "*", "/", "%", "(", ")", ",", "AS"]

/-- The five aggregate-function names of the word loop. -/
def aggWords : List String := ["COUNT", "SUM", "AVG", "MIN", "MAX"]

theorem dropAfterParen_len_le :
    ∀ ws : List (List Char), (dropAfterParen ws).length ≤ ws.length := by
  intro ws
  induction ws with
  | nil => simp [dropAfterParen]
  | cons w ws ih =>
    by_cases h : w = [')'] <;> simp [dropAfterParen, h] <;> omega

/-- The `while i < len(words)` validation loop of `validate_sql`, as a
recursion over the word list; each branch mirrors one `continue` case, and
the fall-through returns `(False, "Disallowed SQL keyword or pattern: w")`.
The `fuel` argument only makes the recursion structural; it is instantiated
with the list length, which suffices (`checkWordsFuel_fuel_irrelevant`). -/
def checkWordsFuel : Nat → List (List Char) → Bool × String
  | 0, _ => (true, "")
  | _ + 1, [] => (true, "")
  | n + 1, w :: ws =>
    if startsQuoted w then checkWordsFuel n ws
    else if aggWords.contains (String.mk w) then checkWordsFuel n (dropAfterParen ws)
    else if isIdentWord w then checkWordsFuel n ws
    else if isNumWord w || opWords.contains (String.mk w) then checkWordsFuel n ws
    else if ALLOWED_SQL_KEYWORDS.contains (String.mk w) then checkWordsFuel n ws
    else (false, "Disallowed SQL keyword or pattern: " ++ String.mk w)

theorem checkWordsFuel_fuel_irrelevant :
    ∀ n m : Nat, ∀ ws : List (List Char),
      ws.length ≤ n → ws.length ≤ m →
      checkWordsFuel n ws = checkWordsFuel m ws := by
  intro n
  induction n using Nat.strong_induction_on with
  | _ n ih =>
    intro m ws hn hm
    rcases ws with _ | ⟨w, ws⟩
    · cases n <;> cases m <;> rfl
    · cases n with
      | zero => simp at hn
      | succ n =>
        cases m with
        | zero => simp at hm
        | succ m =>
          simp only [List.length_cons] at hn hm
          have hdp := dropAfterParen_len_le ws
          simp only [checkWordsFuel]
          repeat' split
          all_goals
            first
            | rfl
            | exact ih n (by omega) m ws (by omega) (by omega)
            | exact ih n (by omega) m (dropAfterParen ws) (by omega) (by omega)

/-- The word-validation loop applied with adequate fuel. -/
def checkWords (ws : List (List Char)) : Bool × String :=
  checkWordsFuel ws.length ws

/-- Embedding of `QueryProcessor.validate_sql` (query_processor.py).  Gate A
(`SecurityValidator.validate_sql_injection`) is run first inside a
`try`/`except SecurityError` that converts the raised error into a
`(False, str(e))` verdict; then the statement must start with `SELECT`
(after strip and upper), and the words of the uppercased portion before the
first `FROM` are walked by the allowlist loop. -/
def validate_sql (sql : String) : Bool × String :=
  match validate_sql_injection sql with
  | some msg => (false, msg)
  | none =>
    if !("SELECT".data.isPrefixOf (upperL (stripWS sql.data))) then
      (false, "Query must start with SELECT")
    else
      let normalized_sql := upperL sql.data
      let select_part := stripWS (takeBeforeSub "FROM".data normalized_sql)
      checkWords (tokWords [] false select_part)

/-! ## SQL extraction: `QueryProcessor._parse_sql` (query_processor.py) -/

/-- Skip to just past the first triple-backtick fence, if any. -/
def dropThroughFence : List Char → Option (List Char)
  | [] => none
  | c :: t =>
    if (Char.ofNat 96 :: Char.ofNat 96 :: [Char.ofNat 96]).isPrefixOf (c :: t) then
      some ((c :: t).drop 3)
    else dropThroughFence t

/-- Characters strictly before the next triple-backtick fence, if one
occurs. -/
def takeToFence : List Char → Option (List Char)
  | [] => none
  | c :: t =>
    if (Char.ofNat 96 :: Char.ofNat 96 :: [Char.ofNat 96]).isPrefixOf (c :: t) then
      some []
    else (takeToFence t).map (fun l => c :: l)

/-- Python `str.rstrip()` (whitespace) on a character list. -/
def rstripWS (cs : List Char) : List Char :=
  (cs.reverse.dropWhile isPyWS).reverse

/-- First capture of `re.findall(r"\x60\x60\x60(?:sql)?\s*(.*?)\s*\x60\x60\x60", response,
re.DOTALL)` (the fences are triple backticks): find the first fence; behind
it, consume an optional literal `sql` tag and then leading whitespace; the
lazy group with the trailing `\s*` captures the text up to the next fence
with trailing whitespace stripped.  If no later fence exists there is no
match at all (a match needs both fences, and a fence later in the string
would itself serve as closing fence for the first one). -/
def parseFenceBlock (cs : List Char) : Option (List Char) :=
  match dropThroughFence cs with
  | none => none
  | some rest =>
    let rest1 := if "sql".data.isPrefixOf rest then rest.drop 3 else rest
    let rest2 := rest1.dropWhile isPyWS
    (takeToFence rest2).map rstripWS

/-- Whether `SELECT` or `WITH` (ignoring case), followed by at least one
whitespace character (the `\s+` of the statement regex), matches at the head
of `cs`; returns the keyword length. -/
def kwAt (cs : List Char) : Option Nat :=
  if ciStarts "SELECT".data cs then
    match cs.drop 6 with
    | c :: _ => if isPyWS c then some 6 else none
    | [] => none
  else if ciStarts "WITH".data cs then
    match cs.drop 4 with
    | c :: _ => if isPyWS c then some 4 else none
    | [] => none
  else none

/-- Characters of `cs` up to and including the first semicolon, if any. -/
def upToSemiIncl : List Char → Option (List Char)
  | [] => none
  | c :: t => if c = ';' then some [';'] else (upToSemiIncl t).map (fun l => c :: l)

/-- The matched text of `(?:SELECT|WITH)\s+.*?(?:;|$)` starting at a keyword
occurrence at the head of `cs` (keyword length `k`): up to and including the
first semicolon, or to the end of text when none occurs.  (When the text
ends in a newline, `$` stops before it; the caller strips the result, which
absorbs that difference.) -/
def stmtSlice (cs : List Char) (k : Nat) : List Char :=
  match upToSemiIncl (cs.drop k) with
  | some body => cs.take k ++ body
  | none => cs

/-- Leftmost match of `re.findall(r"(?:SELECT|WITH)\s+.*?(?:;|$)", response,
re.DOTALL | re.IGNORECASE)`: scan for the first position where a keyword
followed by whitespace begins (with `re.DOTALL` the lazy `.*?` always
reaches a `;` or the end, so any such position yields a match). -/
def findStmt : List Char → Option (List Char)
  | [] => none
  | c :: t =>
    match kwAt (c :: t) with
    | some k => some (stmtSlice (c :: t) k)
    | none => findStmt t

/-- First line containing `SELECT` (ignoring case), stripped — the
`[line.strip() for line in response.split('\n') if 'SELECT' in line.upper()]`
comprehension followed by taking element 0. -/
def firstSelectLine (cs : List Char) : Option (List Char) :=
  (((splitOnCh '\n' cs).filter
      (fun l => containsSub "SELECT".data (upperL l))).map stripWS).head?

/-- Embedding of `QueryProcessor._parse_sql` (query_processor.py): three
ordered fallback strategies (fenced block, statement regex, SELECT line),
with the trimmed original response as last resort.  A fenced block is
additionally stripped of residual fence markers
(`.replace('\x60\x60\x60sql', '').replace('\x60\x60\x60', '').strip()`). -/
def parse_sql (response : String) : String :=
  match parseFenceBlock response.data with
  | some block =>
    let sql := stripWS block
    let sql := removeSub (Char.ofNat 96 :: Char.ofNat 96 :: Char.ofNat 96 :: "sql".data) sql
    let sql := removeSub (Char.ofNat 96 :: Char.ofNat 96 :: [Char.ofNat 96]) sql
    String.mk (stripWS sql)
  | none =>
    match findStmt response.data with
    | some stmt => String.mk (stripWS stmt)
    | none =>
      match firstSelectLine response.data with
      | some line => String.mk (stripWS line)
      | none => String.mk (stripWS response.data)

/-! ## Prompt construction: `QueryProcessor._create_sql_generation_prompt` -/

/-- Python `sep.join(xs)`. -/
def joinSep (sep : String) : List String → String
  | [] => ""
  | [x] => x
  | x :: y :: t => x ++ sep ++ joinSep sep (y :: t)

/-- Embedding of `QueryProcessor._create_sql_generation_prompt`: the exact
f-string of the source (user question between sentinels, schema text, fixed
instructions), followed by `.strip()`. -/
def create_sql_generation_prompt (user_query schema_info : String) : String :=
  stripStr
    ("\n    ### USER QUESTION START\n    "
      ++ user_query
      ++ "\n    ### USER QUESTION END\n\n    "
      ++ schema_info
      ++ "\n\n    ### INSTRUCTIONS\n    Provide only the SQL query inside triple backticks (\x60\x60\x60). Don\x27t include anything else in your response.\n    Strictly use the table names provided in the schema.\n    If the required tables are not in this schema, respond with \x22TABLES_NOT_IN_CHUNK\x22.\n    # Example format:\n    # \x60\x60\x60sql\n    # SELECT column FROM table WHERE condition;\n    # \x60\x60\x60\n    # ")

/-! ## Schema catalog: `DatabaseSchemaManager` (schema_manager.py)

The sqlite introspection itself is an external capability; the schema it
produced is taken as input, and the pure rendering/filtering logic on it is
embedded. -/

/-- One column of a table descriptor (an entry of `table_info["columns"]`). -/
structure ColumnInfo where
  name : String
  type : String
  is_primary_key : Bool
  not_null : Bool
  defaultVal : Option String
deriving DecidableEq, Repr

/-- One table of the schema cache. -/
structure TableInfo where
  name : String
  columns : List ColumnInfo
deriving DecidableEq, Repr

/-- One foreign-key relationship of the schema cache. -/
structure RelInfo where
  table : String
  column : String
  references_table : String
  references_column : String
deriving DecidableEq, Repr

/-- The schema dictionary built by `get_schema`. -/
structure DbSchema where
  tables : List TableInfo
  relationships : List RelInfo
deriving DecidableEq, Repr

/-- Rendering of one column: `f"{col['name']} {col['type']} {flag_str}".strip()`
with `flag_str` the space-joined `PK`/`NN` flags. -/
def renderColumn (col : ColumnInfo) : String :=
  let flags := (if col.is_primary_key then ["PK"] else []) ++
    (if col.not_null then ["NN"] else [])
  let flag_str := joinSep " " flags
  stripStr (col.name ++ " " ++ col.type ++ " " ++ flag_str)

/-- Rendering of one table line:
`f"{table['name']}({', '.join(column_defs)});\n"`. -/
def renderTable (t : TableInfo) : String :=
  t.name ++ "(" ++ joinSep ", " (t.columns.map renderColumn) ++ ");\n"

/-- The fallback table-name list of `filter_relevant_tables`. -/
def fallback_tables : List String := ["customer", "countries", "prospect", "visit"]

/-- The set of relevant table names computed by `filter_relevant_tables`:
tables whose lowercased name occurs in the lowercased question, or — when
that set is empty — the fallback names that exist in the schema. -/
def relevantTableNames (schema : DbSchema) (user_query : String) : List String :=
  let query_lower := lowerL user_query.data
  let matched := (schema.tables.filter
    (fun t => containsSub (lowerL t.name.data) query_lower)).map (fun t => t.name)
  if matched.isEmpty then
    fallback_tables.filter (fun t => (schema.tables.map (fun tbl => tbl.name)).contains t)
  else matched

/-- The tables of the schema that are rendered by `filter_relevant_tables`
(iteration over `schema["tables"]` keeping those whose name is in the
relevant set). -/
def renderedTables (schema : DbSchema) (user_query : String) : List TableInfo :=
  schema.tables.filter (fun t => (relevantTableNames schema user_query).contains t.name)

/-- Embedding of `DatabaseSchemaManager.filter_relevant_tables`
(schema_manager.py): header plus one rendered line per relevant table. -/
def filter_relevant_tables (schema : DbSchema) (user_query : String) : String :=
  (renderedTables schema user_query).foldl
    (fun acc t => acc ++ renderTable t) "### DATABASE SCHEMA\n\n"

/-! ## Completion client: `LocalLLMClient.generate_sql` (llm_client.py) -/

/-- The llama.cpp backend of `LocalLLMClient`, abstracted: a tokenizer pair
and the completion call itself (`self.llm(...)`), whose failure is an
exception carrying a message.  `isLoaded` and `waitOk` are the value of
`self.is_loaded` at the readiness check and the result of the
`wait_for_model` join. -/
structure LlmEnv where
  isLoaded : Bool
  waitOk : Bool
  tokenize : String → List Nat
  detokenize : List Nat → String
  run : String → Except String String

/-- `n_ctx` of the model construction / `max_context_tokens`. -/
def maxContextTokens : Nat := 16384

/-- `max_response_tokens`. -/
def maxResponseTokens : Nat := 1024

/-- `max_prompt_tokens = max_context_tokens - max_response_tokens`. -/
def maxPromptTokens : Nat := maxContextTokens - maxResponseTokens

/-- The instruction template of `generate_sql` (the `wrapped_prompt`
f-string, verbatim). -/
def wrapPrompt (prompt : String) : String :=
  "You are a SQL query generator. Your task is to convert natural language questions into SQL queries.\nYou must ONLY output the SQL query without any explanations or additional text.\nThe SQL query should be wrapped in triple backticks with the sql language specifier.\n        ### Instruction:\n        "
    ++ prompt
    ++ "\n\n        ### Response:"

/-- Embedding of `LocalLLMClient.generate_sql` (llm_client.py).  Mirrors the
source line by line: the readiness check returns the sentinel string
`"Model not ready."`; `wrapped_prompt` is built from `prompt` BEFORE the
truncation block; the truncation block re-binds the local `prompt` to the
detokenized truncated text, but that re-bound value is never used again —
the completion call receives `wrapped_prompt` unchanged (`truncatedPrompt`
is the dead local).  A backend exception yields `"Error generating SQL."`,
otherwise the completion text is stripped. -/
def generate_sql (env : LlmEnv) (prompt : String) : String :=
  if !env.isLoaded && !env.waitOk then "Model not ready."
  else
    let wrapped_prompt := wrapPrompt prompt
    let encoded := env.tokenize prompt
    let truncatedPrompt :=
      if encoded.length > maxPromptTokens then
        env.detokenize (encoded.take maxPromptTokens)
      else prompt
    -- `truncatedPrompt` (the Python local `prompt` after line 44) is dead:
    -- the call below uses `wrapped_prompt`, built before truncation.
    let _ := truncatedPrompt
    match env.run wrapped_prompt with
    | Except.ok out => stripStr out
    | Except.error _ => "Error generating SQL."

/-! ## Exceptions, input validation and the orchestrator (utils/security.py,
utils/exceptions.py, query_executor.py, rag_agent.py) -/

/-- The exception taxonomy of utils/exceptions.py (every class derives from
`RAGAgentError`, itself an `Exception`); each constructor carries the
message `str(e)`.  `otherE` stands for any further `Exception`. -/
inductive Exc where
  | securityE (m : String)
  | timeoutE (m : String)
  | validationE (m : String)
  | queryProcessingE (m : String)
  | databaseE (m : String)
  | modelE (m : String)
  | otherE (m : String)
deriving DecidableEq, Repr

deriving instance DecidableEq for Except

/-- Python `str(e)`: the message of the exception. -/
def excMsg : Exc → String
  | .securityE m => m
  | .timeoutE m => m
  | .validationE m => m
  | .queryProcessingE m => m
  | .databaseE m => m
  | .modelE m => m
  | .otherE m => m

/-- Embedding of `SecurityValidator.sanitize_input`: remove null bytes, then
every character with code point below 32. -/
def sanitize_input (input_str : String) : String :=
  let s1 := input_str.data.filter (fun c => c ≠ Char.ofNat 0)
  String.mk (s1.filter (fun c => 32 ≤ c.toNat))

/-- `MAX_QUERY_LENGTH` (config.py default, also the default of
`validate_query_length`). -/
def MAX_QUERY_LENGTH : Nat := 1000

/-- `QUERY_TIMEOUT` in seconds (config.py default). -/
def QUERY_TIMEOUT : Nat := 30

/-- Embedding of `SecurityValidator.validate_query_length`: raises
`SecurityError` when the query exceeds the maximum length. -/
def validate_query_length (query : String) : Except Exc Unit :=
  if query.length > MAX_QUERY_LENGTH then
    Except.error (Exc.securityE
      ("Query exceeds maximum length of " ++ toString MAX_QUERY_LENGTH ++ " characters"))
  else Except.ok ()

/-- Embedding of `QueryValidator.validate_query` (utils/security.py): the
sanitized copy is used for the length and injection checks only; the
function returns a bare verdict (`True` or a raised `SecurityError`), never
the sanitized text. -/
def validate_query (query : String) : Except Exc Unit :=
  let query := sanitize_input query
  match validate_query_length query with
  | Except.error e => Except.error e
  | Except.ok _ =>
    match validate_sql_injection query with
    | some msg => Except.error (Exc.securityE msg)
    | none => Except.ok ()

/-- A row of a sqlite result set, abstract (the pipeline never inspects row
contents). -/
def RowData := List String
deriving instance DecidableEq, Repr for RowData

/-- Stand-in for the pandas summary dictionary produced by `format_results`
(row/column counts, dtypes, numeric statistics); its contents are opaque to
every claim. -/
def SummaryData := List (String × String)
deriving instance DecidableEq, Repr for SummaryData

/-- The external capabilities used by `OfflineRAGAgent.process_query`:
model-readiness flags, the schema relevance filter (which touches sqlite and
may raise), the completion client, the raw sqlite execution, and the pandas
formatting step of `format_results` (which may raise; on success it yields
the records, column list and summary). -/
structure Env where
  isLoaded : Bool
  waitOk : Bool
  filterRelevant : String → Except Exc String
  generateSql : String → Except Exc String
  execute : String → Except Exc (List RowData × List String)
  formatOk : List RowData → List String → Except Exc (List RowData × List String × SummaryData)

/-- Embedding of `QueryExecutor.execute_query` (query_executor.py): run the
SQL on the store; any exception whose message contains `"timeout"`
(lowercased) becomes a `TimeoutError`, every other one a `DatabaseError`. -/
def execute_query (env : Env) (sql : String) : Except Exc (List RowData × List String) :=
  match env.execute sql with
  | Except.ok dc => Except.ok dc
  | Except.error e =>
    if containsSub "timeout".data (lowerL (excMsg e).data) then
      Except.error (Exc.timeoutE
        ("Query execution timed out after " ++ toString QUERY_TIMEOUT ++ " seconds"))
    else
      Except.error (Exc.databaseE ("Failed to execute query: " ++ excMsg e))

/-- The dictionary returned by `QueryExecutor.format_results`. -/
structure FormatRes where
  status : String
  message : String
  data : List RowData
  columns : List String
  summary : Option SummaryData
deriving DecidableEq, Repr

/-- Embedding of `QueryExecutor.format_results` for an execution result of
status `"success"` (the only kind `execute_query` can return — its
non-success passthrough branch is unreachable here).  The pandas work inside
the `try` is the abstract `env.formatOk`; its failure is caught and degraded
to an error dictionary carrying the raw data and columns. -/
def format_results (env : Env) (d : List RowData) (c : List String) : FormatRes :=
  match env.formatOk d c with
  | Except.ok (recs, cols, s) =>
    { status := "success", message := "Query executed successfully",
      data := recs, columns := cols, summary := some s }
  | Except.error e =>
    { status := "error", message := "Failed to format results: " ++ excMsg e,
      data := d, columns := c, summary := none }

/-- Embedding of `QueryProcessor.process_query` (query_processor.py): the
whole body runs in a `try` whose `except Exception` re-raises every failure
as `QueryProcessingError(f"Failed to process query: {e}")` — including the
`ValidationError` for empty input and the `QueryProcessingError` raised when
`validate_sql` rejects.  On success the returned dictionary carries only the
SQL string. -/
def qp_process_query (env : Env) (user_query : String) : Except Exc String :=
  let body : Except Exc String :=
    if user_query = "" then
      Except.error (Exc.validationE "Invalid query input")
    else
      match env.filterRelevant user_query with
      | Except.error e => Except.error e
      | Except.ok schema_info =>
        let prompt := create_sql_generation_prompt user_query schema_info
        match env.generateSql prompt with
        | Except.error e => Except.error e
        | Except.ok raw_sql =>
          let sql := parse_sql raw_sql
          let v := validate_sql sql
          if v.1 then Except.ok sql
          else Except.error (Exc.queryProcessingE ("Invalid SQL generated: " ++ v.2))
  match body with
  | Except.ok sql => Except.ok sql
  | Except.error e =>
    Except.error (Exc.queryProcessingE ("Failed to process query: " ++ excMsg e))

/-- The response dictionary of `OfflineRAGAgent.process_query`.  Optional
fields model keys that are absent from some of the returned dictionaries;
`results` is doubly optional because the invalid-SQL dictionary contains the
key with value `None`.  `metricsPresent` records the presence of the
`metrics` key (its content, timing statistics, is out of scope). -/
structure AgentResult where
  status : String
  message : String
  user_query : String
  sql : Option String := none
  results : Option (Option (List RowData)) := none
  columns : Option (List String) := none
  summary : Option SummaryData := none
  metricsPresent : Bool := false
deriving DecidableEq, Repr

/-- The `try` body of `OfflineRAGAgent.process_query` (rag_agent.py):
input validation, the model-readiness check with its `pending` early return,
SQL generation, re-validation of the generated SQL, execution, and
formatting. -/
def process_query_body (env : Env) (user_query : String) : Except Exc AgentResult :=
  match validate_query user_query with
  | Except.error e => Except.error e
  | Except.ok _ =>
    if !env.isLoaded && !env.waitOk then
      Except.ok { status := "pending",
                  message := "Model loading timeout. Please try again.",
                  user_query := user_query }
    else
      match qp_process_query env user_query with
      | Except.error e => Except.error e
      | Except.ok sql =>
        let v := validate_sql sql
        if !v.1 then
          Except.ok { status := "error", message := "Invalid SQL: " ++ v.2,
                      user_query := user_query, sql := some sql,
                      results := some none }
        else
          match execute_query env sql with
          | Except.error e => Except.error e
          | Except.ok (d, c) =>
            let fr := format_results env d c
            Except.ok { status := fr.status, message := fr.message,
                        user_query := user_query, sql := some sql,
                        results := some (some fr.data),
                        columns := some fr.columns,
                        summary := some (fr.summary.getD []),
                        metricsPresent := true }

/-- Embedding of `OfflineRAGAgent.process_query` (rag_agent.py): the `try`
body with its three handlers — `except SecurityError`, `except TimeoutError`
(the project's own `TimeoutError`), and the catch-all `except Exception`
that maps any other failure to a generic error dictionary. -/
def agent_process_query (env : Env) (user_query : String) : AgentResult :=
  match process_query_body env user_query with
  | Except.ok r => r
  | Except.error (Exc.securityE m) =>
    { status := "error", message := "Security error: " ++ m,
      user_query := user_query }
  | Except.error (Exc.timeoutE m) =>
    { status := "error", message := "Query timeout: " ++ m,
      user_query := user_query }
  | Except.error e =>
    { status := "error", message := "An unexpected error occurred: " ++ excMsg e,
      user_query := user_query }

/-- A concrete environment for witnesses: the model is loaded, the filter
returns a fixed schema text, the backend returns a fenced SELECT, execution
returns one row, and formatting succeeds. -/
def envDemo : Env :=
  { isLoaded := true
    waitOk := true
    filterRelevant := fun _ =>
      Except.ok "### DATABASE SCHEMA\n\nusers(id INTEGER PK, name TEXT);\n"
    generateSql := fun _ =>
      Except.ok "\x60\x60\x60sql\nSELECT name FROM users\n\x60\x60\x60"
    execute := fun _ => Except.ok ([["alice"]], ["name"])
    formatOk := fun d c => Except.ok (d, c, [("row_count", "1")]) }

/-! ## Supporting lemmas -/

theorem checkWordsFuel_fst_true :
    ∀ (n : Nat) (ws : List (List Char)),
      (checkWordsFuel n ws).1 = true → checkWordsFuel n ws = (true, "") := by
  intro n
  induction n with
  | zero => intro ws _; rfl
  | succ n ih =>
    intro ws h
    rcases ws with _ | ⟨w, ws⟩
    · rfl
    · simp only [checkWordsFuel] at h ⊢
      by_cases h1 : startsQuoted w = true
      · simp only [h1, if_true] at h ⊢
        exact ih _ h
      · simp only [h1, if_false] at h ⊢
        by_cases h2 : aggWords.contains (String.mk w) = true
        · simp only [h2, if_true] at h ⊢
          exact ih _ h
        · simp only [h2, if_false] at h ⊢
          by_cases h3 : isIdentWord w = true
          · simp only [h3, if_true] at h ⊢
            exact ih _ h
          · simp only [h3, if_false] at h ⊢
            by_cases h4 : (isNumWord w || opWords.contains (String.mk w)) = true
            · simp only [h4, if_true] at h ⊢
              exact ih _ h
            · simp only [h4, if_false] at h ⊢
              by_cases h5 : ALLOWED_SQL_KEYWORDS.contains (String.mk w) = true
              · simp only [h5, if_true] at h ⊢
                exact ih _ h
              · simp only [h5, if_false] at h
                exact absurd h (by simp)

theorem validate_sql_fst_true {s : String}
    (h : (validate_sql s).1 = true) : validate_sql s = (true, "") := by
  unfold validate_sql at h ⊢
  split at h
  next m hg =>
    exact absurd h (by simp)
  next hg =>
    by_cases hb : (!("SELECT".data.isPrefixOf (upperL (stripWS s.data)))) = true
    · rw [if_pos hb] at h
      exact absurd h (by simp)
    · rw [if_neg hb] at h ⊢
      exact checkWordsFuel_fst_true _ _ h

theorem process_query_body_ok {env : Env} {q : String} {r : AgentResult}
    (hb : process_query_body env q = Except.ok r) :
    (r.status = "success" ∨ r.status = "pending" ∨ r.status = "error") ∧
    (r.status = "success" → ∃ s, r.sql = some s ∧ validate_sql s = (true, "")) ∧
    r.user_query = q := by
  unfold process_query_body at hb
  split at hb
  · exact absurd hb (by simp)
  · split at hb
    · -- pending early return
      simp only [Except.ok.injEq] at hb
      subst hb
      refine ⟨Or.inr (Or.inl rfl), ?_, rfl⟩
      intro hs
      exact absurd hs (by simp)
    · split at hb
      · exact absurd hb (by simp)
      next sql hqp =>
        by_cases hvalid : (!(validate_sql sql).1) = true
        · -- invalid SQL dictionary
          rw [if_pos hvalid] at hb
          simp only [Except.ok.injEq] at hb
          subst hb
          refine ⟨Or.inr (Or.inr rfl), ?_, rfl⟩
          intro hs
          exact absurd hs (by simp)
        · rw [if_neg hvalid] at hb
          split at hb
          · exact absurd hb (by simp)
          next d c hex =>
            simp only [Except.ok.injEq] at hb
            subst hb
            have hv : (validate_sql sql).1 = true := by
              revert hvalid
              rcases validate_sql sql with ⟨b, msg⟩
              rcases b <;> simp
            refine ⟨?_, ?_, rfl⟩
            · unfold format_results
              cases hf : env.formatOk d c with
              | ok x =>
                obtain ⟨recs, cols, s⟩ := x
                exact Or.inl rfl
              | error e =>
                exact Or.inr (Or.inr rfl)
            · intro _
              exact ⟨sql, rfl, validate_sql_fst_true hv⟩

theorem agent_user_query_echo (env : Env) (q : String) :
    (agent_process_query env q).user_query = q := by
  unfold agent_process_query
  cases hbo : process_query_body env q with
  | ok r => exact (process_query_body_ok hbo).2.2
  | error e => cases e <;> rfl

/-! ## Claims -/

/-- C1: for every environment and question, if `process_query` returns a
result whose status is `"success"`, the `sql` string in that result passes
the SQL validator (`validate_sql` returns `(true, "")` on it); no success
result is produced for SQL that did not pass validation. -/
theorem c1_success_sql_validated (env : Env) (q : String)
    (h : (agent_process_query env q).status = "success") :
    ∃ s, (agent_process_query env q).sql = some s ∧ validate_sql s = (true, "") := by
  unfold agent_process_query at h ⊢
  cases hbo : process_query_body env q with
  | ok r =>
    rw [hbo] at h
    exact (process_query_body_ok hbo).2.1 h
  | error e =>
    rw [hbo] at h
    cases e <;> simp at h

/-- Witness for C1: a fully concrete run through the pipeline that reaches
status `"success"`, to which the theorem applies. -/
theorem c1_witness :
    ∃ s, (agent_process_query envDemo "show users").sql = some s ∧
      validate_sql s = (true, "") :=
  c1_success_sql_validated envDemo "show users" (by decide)

/-- C3: for every environment and question (the empty string and internal
exceptions of any kind included), `process_query` returns a result whose
status is one of `"success"`, `"pending"`, `"error"`; it never raises past
its boundary (`agent_process_query` is a total function into `AgentResult`),
and unclassified failures land in the catch-all `"error"` branch. -/
theorem c3_status_total (env : Env) (q : String) :
    (agent_process_query env q).status = "success" ∨
    (agent_process_query env q).status = "pending" ∨
    (agent_process_query env q).status = "error" := by
  unfold agent_process_query
  cases hbo : process_query_body env q with
  | ok r => exact (process_query_body_ok hbo).1
  | error e => cases e <;> exact Or.inr (Or.inr rfl)

/-- C4: for every question that passes input validation, if the model is not
loaded and the bounded wait fails, `process_query` returns the `pending`
dictionary — status `"pending"` with its message and the echoed question,
and no other keys. -/
theorem c4_pending (env : Env) (q : String)
    (hv : validate_query q = Except.ok ())
    (hl : env.isLoaded = false) (hw : env.waitOk = false) :
    agent_process_query env q =
      { status := "pending", message := "Model loading timeout. Please try again.",
        user_query := q } := by
  unfold agent_process_query process_query_body
  rw [hv, hl, hw]
  rfl

/-- Witness for C4: the concrete not-loaded environment and a concrete valid
question, to which the theorem applies. -/
theorem c4_witness :
    validate_query "show users" = Except.ok () ∧
    agent_process_query { envDemo with isLoaded := false, waitOk := false } "show users" =
      { status := "pending", message := "Model loading timeout. Please try again.",
        user_query := "show users" } :=
  ⟨by decide, c4_pending _ "show users" (by decide) rfl rfl⟩

/-- C9: `validate_sql` is total and exception-free at its interface — for
every input it yields a `(Bool, reason)` pair whose only passing value is
`(true, "")`, and a `SecurityError` raised by the Gate A denylist is
converted into a `(false, message)` verdict rather than propagating. -/
theorem c9_validate_sql_total (sql : String) :
    (∀ m, validate_sql_injection sql = some m → validate_sql sql = (false, m)) ∧
    (validate_sql sql = (true, "") ∨ (validate_sql sql).1 = false) := by
  constructor
  · intro m hm
    unfold validate_sql
    rw [hm]
  · by_cases h : (validate_sql sql).1 = true
    · exact Or.inl (validate_sql_fst_true h)
    · exact Or.inr (by simpa using h)

/-- Witness for C9: Gate A raises on `DROP TABLE users` and `validate_sql`
returns the converted `(false, message)` verdict. -/
theorem c9_witness :
    validate_sql "DROP TABLE users" =
      (false, "Potential SQL injection detected: DROP\\s+TABLE") :=
  (c9_validate_sql_total "DROP TABLE users").1 _ (by decide)

/-- C10: input sanitization never alters the pipeline's data.  The schema
filter is consulted only at the caller's original question, the backend only
at the prompt built from the original question and that filtered schema, and
the echoed `user_query` is the original unmodified string — two
environments that agree there (even if they differ at the sanitized
question) produce identical results. -/
theorem c10_sanitize_frame (e₁ e₂ : Env) (q : String)
    (hl : e₁.isLoaded = e₂.isLoaded) (hw : e₁.waitOk = e₂.waitOk)
    (hf : e₁.filterRelevant q = e₂.filterRelevant q)
    (hg : ∀ si, e₁.filterRelevant q = Except.ok si →
      e₁.generateSql (create_sql_generation_prompt q si) =
        e₂.generateSql (create_sql_generation_prompt q si))
    (hx : e₁.execute = e₂.execute)
    (hfo : e₁.formatOk = e₂.formatOk) :
    agent_process_query e₁ q = agent_process_query e₂ q ∧
    (agent_process_query e₁ q).user_query = q := by
  refine ⟨?_, agent_user_query_echo e₁ q⟩
  have hqp : qp_process_query e₁ q = qp_process_query e₂ q := by
    unfold qp_process_query
    by_cases hq : q = ""
    · subst hq
      rfl
    · rw [if_neg hq, if_neg hq, hf]
      cases hfq : e₂.filterRelevant q with
      | error e => rfl
      | ok si =>
        dsimp only
        rw [hg si (hf.trans hfq)]
  have hex : ∀ s, execute_query e₁ s = execute_query e₂ s := by
    intro s
    unfold execute_query
    rw [hx]
  have hfr : ∀ d c, format_results e₁ d c = format_results e₂ d c := by
    intro d c
    unfold format_results
    rw [hfo]
  unfold agent_process_query process_query_body
  rw [hl, hw, hqp]
  simp only [hex, hfr]

/-- Environments for the C10 witness: they agree at the raw question
`"hi\x01"` (which contains a control character) but disagree at its
sanitized form `"hi"`; the results are nevertheless identical, showing the
sanitized copy is local to validation. -/
def envW1 : Env := { envDemo with filterRelevant := fun s => Except.ok s }

/-- Second environment of the C10 witness (differs from `envW1` only at the
sanitized question). -/
def envW2 : Env :=
  { envDemo with filterRelevant := fun s =>
      if s = "hi" then Except.ok "DIFFERENT" else Except.ok s }

/-- Witness for C10 at the concrete question `"hi\x01"`. -/
theorem c10_witness :
    agent_process_query envW1 "hi\x01" = agent_process_query envW2 "hi\x01" ∧
    (agent_process_query envW1 "hi\x01").user_query = "hi\x01" :=
  c10_sanitize_frame envW1 envW2 "hi\x01" rfl rfl (by decide)
    (fun _ _ => rfl) rfl rfl

/-- C6: `validate("SELECT COUNT(*) FROM orders")` accepts.  The conjuncts
exhibit the mechanism: the bare aggregate-star call is erased before the
Gate A denylist scan (leaving `"SELECT  FROM orders"`), Gate A passes, the
Gate B token walk sees `SELECT COUNT ( * )` and skips the aggregate call,
and the overall verdict is `(true, "")`. -/
theorem c6_count_star_accepted :
    validate_sql "SELECT COUNT(*) FROM orders" = (true, "") ∧
    validate_sql_injection "SELECT COUNT(*) FROM orders" = none ∧
    eraseAggStar (rstripSemis "SELECT COUNT(*) FROM orders".data) =
      "SELECT  FROM orders".data ∧
    tokWords [] false
        (stripWS (takeBeforeSub "FROM".data (upperL "SELECT COUNT(*) FROM orders".data))) =
      ["SELECT".data, "COUNT".data, ['('], ['*'], [')']] := by
  refine ⟨by decide, by decide, by decide, by decide⟩

/-- The llama.cpp stand-in for the C2 exhibit: a tokenizer that produces
2000 tokens per character (so even a short prompt overflows the context
budget), a detokenizer producing one `Z` per 2000 tokens, and a completion
call that echoes the text it was sent, making the text handed to the
backend observable in the return value. -/
def llmDemo : LlmEnv :=
  { isLoaded := true
    waitOk := true
    tokenize := fun s => List.replicate (2000 * s.length) 0
    detokenize := fun l => String.mk (List.replicate (l.length / 2000) 'Z')
    run := fun sent => Except.ok sent }

/-- The C2 failing input: under `llmDemo.tokenize` this 8-character prompt
encodes to 16000 tokens, exceeding `maxPromptTokens = 15360`. -/
def longPromptC2 : String := "SELECT!!"

set_option maxRecDepth 20000 in
/-- C2 exhibit (code bug): for a prompt whose token count exceeds
`maxContextTokens - maxResponseTokens`, the text actually sent to the
backend (observed through the echoing `run`) is the instruction template
wrapped around the ORIGINAL prompt: it still contains the untruncated
prompt, and does not contain the re-materialized truncated prompt
(`"ZZZZZZZ"`) at all — `generate_sql` computes the truncated prompt but
never uses it, because `wrapped_prompt` is built before the truncation
block. -/
theorem c2_truncation_dead_code :
    (llmDemo.tokenize longPromptC2).length > maxPromptTokens ∧
    generate_sql llmDemo longPromptC2 = stripStr (wrapPrompt longPromptC2) ∧
    containsSub longPromptC2.data (generate_sql llmDemo longPromptC2).data = true ∧
    llmDemo.detokenize ((llmDemo.tokenize longPromptC2).take maxPromptTokens) = "ZZZZZZZ" ∧
    containsSub "ZZZZZZZ".data (generate_sql llmDemo longPromptC2).data = false := by
  refine ⟨?_, rfl, by decide, ?_, by decide⟩
  · simp only [llmDemo, List.length_replicate]
    decide
  · simp only [llmDemo, List.take_replicate, List.length_replicate]
    decide

/-! ## C5: the semicolon handling of Gate A -/

/-- Claim-side transliteration of C5's wording "strips a single trailing
semicolon": remove one `;` from the end when present.  (The source instead
strips EVERY trailing semicolon — `query.rstrip(';')` — which is what the
counterexample exploits.) -/
def stripSingleTrailingSemi (cs : List Char) : List Char :=
  if cs.getLast? = some ';' then cs.dropLast else cs

/-- Position check used to state C5: some semicolon occurs at a position
other than the very last one. -/
def nonFinalSemi : List Char → Bool
  | [] => false
  | [_] => false
  | c :: d :: rest => (c = ';') || nonFinalSemi (d :: rest)

/-- Counterexample to C5 as stated: after stripping a single trailing
semicolon, `"SELECT 1;;;"` still contains a semicolon that is not at the
very end, so the claim demands rejection — but Gate A (which strips ALL
trailing semicolons) accepts the string. -/
theorem c5_counterexample :
    nonFinalSemi (stripSingleTrailingSemi "SELECT 1;;;".data) = true ∧
    validate_sql_injection "SELECT 1;;;" = none := by
  exact ⟨by decide, by decide⟩

theorem semiNotAtEnd_iff (cs : List Char) :
    semiNotAtEnd cs = true ↔
      ∃ l r, cs = l ++ ';' :: r ∧ r ≠ [] ∧ r ≠ ['\n'] := by
  induction cs with
  | nil =>
    constructor
    · intro h
      exact absurd h (by simp [semiNotAtEnd])
    · rintro ⟨l, r, h, _, _⟩
      exact absurd h.symm (by simp)
  | cons c t ih =>
    cases t with
    | nil =>
      constructor
      · intro h
        exact absurd h (by simp [semiNotAtEnd])
      · rintro ⟨l, r, h, hr, _⟩
        rcases l with _ | ⟨x, l'⟩
        · simp only [List.nil_append] at h
          injection h with h1 h2
          exact absurd h2.symm hr
        · simp only [List.cons_append] at h
          injection h with h1 h2
          exact absurd h2.symm (by simp)
    | cons d rest =>
      constructor
      · intro h
        simp only [semiNotAtEnd] at h
        cases (Bool.or_eq_true _ _).mp h with
        | inl h1 =>
          rw [Bool.and_eq_true] at h1
          obtain ⟨hc, hnd⟩ := h1
          have hc' : c = ';' := of_decide_eq_true hc
          refine ⟨[], d :: rest, by rw [hc']; rfl, by simp, ?_⟩
          intro hcontra
          injection hcontra with hd hrest
          rw [Bool.not_eq_true'] at hnd
          rw [hd, hrest] at hnd
          simp at hnd
        | inr h2 =>
          obtain ⟨l, r, heq, hr1, hr2⟩ := ih.mp h2
          exact ⟨c :: l, r, by rw [heq]; rfl, hr1, hr2⟩
      · rintro ⟨l, r, heq, hr1, hr2⟩
        simp only [semiNotAtEnd]
        apply (Bool.or_eq_true _ _).mpr
        rcases l with _ | ⟨x, l'⟩
        · simp only [List.nil_append] at heq
          injection heq with hc ht
          left
          rw [Bool.and_eq_true]
          refine ⟨decide_eq_true hc, ?_⟩
          rw [Bool.not_eq_true']
          cases hd : decide (d = '\n') with
          | false => simp [hd]
          | true =>
            cases hre : decide (rest = []) with
            | false => simp [hd, hre]
            | true =>
              have : r = ['\n'] := by
                rw [← ht, of_decide_eq_true hd, of_decide_eq_true hre]
              exact absurd this hr2
        · simp only [List.cons_append] at heq
          injection heq with hc ht
          right
          exact ih.mpr ⟨l', r, ht, hr1, hr2⟩

theorem firstDangerous_isSome_of_semi {cs : List Char}
    (h : semiNotAtEnd cs = true) :
    (firstDangerous cs dangerousPatterns).isSome = true := by
  unfold dangerousPatterns
  by_cases h1 : lineCommentMatch cs
  · simp [firstDangerous, h1]
  · simp [firstDangerous, h1, h]

theorem rstripSemis_append_semi (cs : List Char) :
    rstripSemis (cs ++ [';']) = rstripSemis cs := by
  unfold rstripSemis
  rw [List.reverse_append]
  simp [List.dropWhile]

/-- C5 amended: Gate A first strips ALL trailing semicolons (not a single
one) and erases bare aggregate-star calls; it rejects every SQL string in
which, after that strip and erasure, a semicolon occurs that is neither the
final character nor immediately before a sole final newline; and appending a
trailing semicolon to any SQL never changes Gate A's verdict (in particular
a statement is never rejected solely for ending in one). -/
theorem c5_amended_semicolon_gate (s : String) :
    ((∃ l r, eraseAggStar (rstripSemis s.data) = l ++ ';' :: r ∧ r ≠ [] ∧ r ≠ ['\n']) →
      (validate_sql_injection s).isSome = true) ∧
    validate_sql_injection (s ++ ";") = validate_sql_injection s := by
  constructor
  · intro hex
    have hsemi : semiNotAtEnd (eraseAggStar (rstripSemis s.data)) = true :=
      (semiNotAtEnd_iff _).mpr hex
    have h2 := firstDangerous_isSome_of_semi hsemi
    unfold validate_sql_injection
    rcases hfd : firstDangerous (eraseAggStar (rstripSemis s.data)) dangerousPatterns with _ | m
    · rw [hfd] at h2
      exact absurd h2 (by simp)
    · simp [hfd]
  · unfold validate_sql_injection
    rw [String.data_append]
    have hsd : (";" : String).data = [';'] := rfl
    rw [hsd, rstripSemis_append_semi]

/-- Witness for C5 (amended): the concrete string `"a;b"` has an interior
semicolon surviving strip and erasure, Gate A rejects it, and appending a
semicolon does not change the verdict. -/
theorem c5_amended_witness :
    (validate_sql_injection "a;b").isSome = true ∧
    validate_sql_injection ("a;b" ++ ";") = validate_sql_injection "a;b" :=
  ⟨(c5_amended_semicolon_gate "a;b").1
      ⟨['a'], ['b'], by decide, by decide, by decide⟩,
    (c5_amended_semicolon_gate "a;b").2⟩

/-! ## C7: idempotence of extraction on clean SQL -/

theorem dropThroughFence_of_noFence {cs : List Char}
    (h : containsSub (Char.ofNat 96 :: Char.ofNat 96 :: [Char.ofNat 96]) cs = false) :
    dropThroughFence cs = none := by
  induction cs with
  | nil => rfl
  | cons c t ih =>
    unfold containsSub at h
    rw [Bool.or_eq_false_iff] at h
    unfold dropThroughFence
    rw [if_neg (by simp [h.1]), ih h.2]

theorem dropLast_drop_comm :
    ∀ (k : Nat) (l : List Char), (l.drop k).dropLast = l.dropLast.drop k := by
  intro k
  induction k with
  | zero => intro l; simp
  | succ k ih =>
    intro l
    cases l with
    | nil => simp
    | cons c t =>
      simp only [List.drop_succ_cons]
      rw [ih t]
      cases t with
      | nil => simp
      | cons d r =>
        simp [List.dropLast]

theorem upToSemiIncl_clean {cs : List Char}
    (h : cs.dropLast.all (fun c => c ≠ ';') = true) :
    upToSemiIncl cs = none ∨ upToSemiIncl cs = some cs := by
  induction cs with
  | nil => exact Or.inl rfl
  | cons c t ih =>
    unfold upToSemiIncl
    by_cases hc : c = ';'
    · rw [if_pos hc]
      cases t with
      | nil =>
        right
        rw [hc]
      | cons d r =>
        exfalso
        have h2 : (c :: (d :: r).dropLast).all (fun x => x ≠ ';') = true := by
          rw [← show (c :: d :: r).dropLast = c :: (d :: r).dropLast from by
            simp [List.dropLast]]
          exact h
        have h3 : ¬c = ';' ∧ ∀ x ∈ (d :: r).dropLast, ¬x = ';' := by simpa using h2
        exact h3.1 hc
    · rw [if_neg hc]
      cases t with
      | nil => exact Or.inl rfl
      | cons d r =>
        have ht : ((d :: r).dropLast.all (fun x => x ≠ ';')) = true := by
          rw [show (c :: d :: r).dropLast = c :: (d :: r).dropLast from by
            simp [List.dropLast]] at h
          have h3 : ¬c = ';' ∧ ∀ x ∈ (d :: r).dropLast, ¬x = ';' := by simpa using h
          simpa using h3.2
        rcases ih ht with h' | h'
        · left
          rw [h']
          rfl
        · right
          rw [h']
          rfl

theorem stmtSlice_clean {cs : List Char} (k : Nat)
    (h : cs.dropLast.all (fun c => c ≠ ';') = true) :
    stmtSlice cs k = cs := by
  unfold stmtSlice
  have hdrop : (cs.drop k).dropLast.all (fun c => c ≠ ';') = true := by
    rw [dropLast_drop_comm]
    exact List.all_eq_true.mpr fun x hx =>
      List.all_eq_true.mp h x (List.mem_of_mem_drop hx)
  rcases upToSemiIncl_clean hdrop with h' | h' <;> rw [h']
  exact List.take_append_drop k cs

/-- C7: `extract` is idempotent on already-clean SQL.  "Clean" is made
precise as: no triple-backtick fence occurs, the text begins with `SELECT`
or `WITH` followed by whitespace (so strategy 2 matches at position 0), any
semicolon is the final character (so the statement regex consumes the whole
text), and the text is already stripped.  Then `parse_sql s = s`. -/
theorem c7_parse_sql_idempotent (s : String)
    (hfence : containsSub (Char.ofNat 96 :: Char.ofNat 96 :: [Char.ofNat 96]) s.data = false)
    (hsemi : s.data.dropLast.all (fun c => c ≠ ';') = true)
    (htrim : stripWS s.data = s.data) :
    ∀ k, kwAt s.data = some k → parse_sql s = s := by
  intro k hk
  unfold parse_sql
  rw [show parseFenceBlock s.data = none from by
    unfold parseFenceBlock
    rw [dropThroughFence_of_noFence hfence]]
  have hstmt : findStmt s.data = some (stmtSlice s.data k) := by
    rcases hd : s.data with _ | ⟨c, t⟩
    · rw [hd] at hk
      exact absurd hk (by simp [kwAt])
    · rw [hd] at hk
      unfold findStmt
      rw [hk]
  dsimp only
  rw [hstmt]
  dsimp only
  rw [stmtSlice_clean k hsemi, htrim]

/-- Witness for C7: a concrete clean statement on which `parse_sql` is the
identity; every cleanliness hypothesis is discharged by evaluation. -/
theorem c7_witness :
    parse_sql "SELECT name FROM users;" = "SELECT name FROM users;" :=
  c7_parse_sql_idempotent "SELECT name FROM users;"
    (by decide) (by decide) (by decide) 6 (by decide)

/-! ## C8: the relevance filter of the schema catalog -/

/-- C8: a table is rendered iff its lowercased name occurs as a substring of
the lowercased question; when no table matches, the rendered tables are
exactly those of the schema whose name lies in the fixed default list
(i.e. the default set intersected with the existing tables). -/
theorem c8_relevance_filter (schema : DbSchema) (q : String) (t : TableInfo) :
    ((∃ t' ∈ schema.tables,
        containsSub (lowerL t'.name.data) (lowerL q.data) = true) →
      (t ∈ renderedTables schema q ↔
        t ∈ schema.tables ∧ containsSub (lowerL t.name.data) (lowerL q.data) = true)) ∧
    ((¬ ∃ t' ∈ schema.tables,
        containsSub (lowerL t'.name.data) (lowerL q.data) = true) →
      (t ∈ renderedTables schema q ↔
        t ∈ schema.tables ∧ t.name ∈ fallback_tables)) := by
  have hmatched : ∀ u : TableInfo,
      u ∈ schema.tables.filter
        (fun v => containsSub (lowerL v.name.data) (lowerL q.data)) ↔
      u ∈ schema.tables ∧ containsSub (lowerL u.name.data) (lowerL q.data) = true := by
    intro u
    simp [List.mem_filter]
  constructor
  · intro hex
    have hne : ¬ ((schema.tables.filter
        (fun v => containsSub (lowerL v.name.data) (lowerL q.data))).map
          (fun v => v.name)).isEmpty = true := by
      obtain ⟨t', ht', hc⟩ := hex
      simp only [List.isEmpty_iff, List.map_eq_nil_iff, List.filter_eq_nil_iff]
      intro hall
      exact absurd hc (by simpa using hall t' ht')
    unfold renderedTables relevantTableNames
    rw [if_neg hne]
    constructor
    · intro hmem
      rw [List.mem_filter] at hmem
      obtain ⟨hmem1, hmem2⟩ := hmem
      refine ⟨hmem1, ?_⟩
      rw [List.elem_iff, List.mem_map] at hmem2
      obtain ⟨u, hu, hname⟩ := hmem2
      have := (hmatched u).mp (by simpa using hu)
      rw [← hname]
      exact this.2
    · intro ⟨hmem, hc⟩
      rw [List.mem_filter]
      refine ⟨hmem, ?_⟩
      rw [List.elem_iff, List.mem_map]
      exact ⟨t, (hmatched t).mpr ⟨hmem, hc⟩, rfl⟩
  · intro hnex
    have he : ((schema.tables.filter
        (fun v => containsSub (lowerL v.name.data) (lowerL q.data))).map
          (fun v => v.name)).isEmpty = true := by
      simp only [List.isEmpty_iff, List.map_eq_nil_iff, List.filter_eq_nil_iff]
      intro u hu
      by_contra hc
      exact hnex ⟨u, hu, by simpa using hc⟩
    unfold renderedTables relevantTableNames
    rw [if_pos he]
    constructor
    · intro hmem
      rw [List.mem_filter] at hmem
      obtain ⟨hmem1, hmem2⟩ := hmem
      rw [List.elem_iff, List.mem_filter] at hmem2
      exact ⟨hmem1, hmem2.1⟩
    · intro ⟨hmem, hfb⟩
      rw [List.mem_filter]
      refine ⟨hmem, ?_⟩
      rw [List.elem_iff, List.mem_filter]
      refine ⟨hfb, ?_⟩
      rw [List.elem_iff, List.mem_map]
      exact ⟨t, hmem, rfl⟩

/-- A concrete schema for the C8 witness. -/
def schemaW : DbSchema :=
  { tables :=
      [ { name := "users", columns := [] },
        { name := "orders", columns := [] } ]
    relationships := [] }

/-- Witness for C8: for the question `"show users"` the table `users`
matches and is rendered; the theorem's matching branch applies with all
hypotheses discharged on concrete data. -/
theorem c8_witness :
    { name := "users", columns := [] } ∈ renderedTables schemaW "show users" :=
  ((c8_relevance_filter schemaW "show users" { name := "users", columns := [] }).1
      ⟨{ name := "users", columns := [] }, by decide, by decide⟩).mpr
    ⟨by decide, by decide⟩
